import Mathlib

/-!
Verification of the document retrieval engine of SciAssist-Electrolyte.

The development shallowly embeds the two retrieval classes
(PurePythonRetriever in src/retrieval/electrolyte_retriever.py and
PurePythonRetrievalManager in src/retrieval/retrieval_manager.py).

Modelling conventions:
- Python floats are modelled as real numbers.
- Python dicts are modelled as association lists (List (String × ℝ));
  d.get(k, 0) becomes (l.lookup k).getD 0, and key membership becomes
  (l.lookup k).isSome. Python sets of strings become Finset String.
- Raising ValueError is modelled by an error value: methods that mutate
  state return (new state, Option RetrievalError) with the state left
  unchanged on the error branch (in the source the raise precedes every
  assignment), and read-only methods return Except RetrievalError.
- documents metadata is an opaque payload, modelled by a type parameter.
- list.sort(key=itemgetter(1), reverse=True) is a stable descending sort
  on the second component; it is modelled by the insertion sort sortDesc,
  which is the canonical specification of such a stable sort.
- the character class of the regular expression in preprocess_text is
  rendered with the ASCII classifiers of Char; none of the verified
  claims depends on how non-ASCII characters are classified.
-/

noncomputable section

namespace SciAssist

/-- Input unit of the engine: a content string plus opaque metadata. -/
structure Document (μ : Type) where
  content : String
  metadata : μ

/-- One ranked search hit, as assembled in PurePythonRetriever.search. -/
structure SearchResult (μ : Type) where
  content : String
  similarity : ℝ
  metadata : μ

/-- The two usage errors of the engine (both raised as ValueError in the
source): building from an empty corpus, and searching before training. -/
inductive RetrievalError where
  | emptyCorpus
  | notReady
deriving DecidableEq

/-- The hard-coded electrolyte domain term list from the constructor of
PurePythonRetriever. -/
def domain_terms : List String :=
  ["electrolyte", "lithium", "battery", "ionic", "conductivity",
   "coulombic", "efficiency", "voltage", "cycle", "stability",
   "SEI", "interface", "solvent", "salt", "additive", "formation",
   "performance", "capacity", "retention", "density", "energy",
   "anode", "cathode", "cell", "cycling", "decomposition",
   "LiPF6", "LiTFSI", "LiFSI", "EC", "DEC", "DMC", "EMC", "FEC", "VC",
   "库伦效率", "离子电导率", "电化学窗口", "界面稳定性"]

/-- Characters kept by re.sub(r"[^\w\s.,;:!?]", "", text): word
characters, whitespace, and the listed punctuation. -/
def keepChar (c : Char) : Bool :=
  c.isAlphanum || c == '_' || c.isWhitespace ||
    c == '.' || c == ',' || c == ';' || c == ':' || c == '!' || c == '?'

/-- Lower-casing of str.lower, character by character. -/
def str_lower (s : String) : String :=
  String.mk (s.toList.map Char.toLower)

/-- Whitespace splitting of str.split with no argument: maximal runs of
non-whitespace characters become the words, empty fragments never occur.
The accumulator holds the current word reversed. -/
def splitWords : List Char → List Char → List String
  | [], acc => if acc.isEmpty then [] else [String.mk acc.reverse]
  | c :: cs, acc =>
      if c.isWhitespace then
        if acc.isEmpty then splitWords cs []
        else String.mk acc.reverse :: splitWords cs []
      else splitWords cs (c :: acc)

/-- PurePythonRetriever.preprocess_text: lower-case, strip the characters
removed by the regular expression, split on whitespace. -/
def preprocess_text (text : String) : List String :=
  let lowered := (str_lower text).toList
  let stripped := lowered.filter keepChar
  splitWords stripped []

/-- The state of a PurePythonRetriever object: the five fields set in the
constructor (the domain term list is the constant domain_terms). -/
structure PurePythonRetriever (μ : Type) where
  documents : List (Document μ)
  vocab : Finset String
  doc_vectors : List (List (String × ℝ))
  idf : List (String × ℝ)
  is_trained : Bool

namespace PurePythonRetriever

variable {μ : Type}

/-- The state built by the constructor of PurePythonRetriever. -/
def init : PurePythonRetriever μ :=
  { documents := [], vocab := ∅, doc_vectors := [], idf := [], is_trained := false }

/-- PurePythonRetriever.build_vocabulary: the union of every token of the
corpus with the lower-cased domain terms. -/
def build_vocabulary (documents : List (Document μ)) : Finset String :=
  (documents.flatMap (fun d => preprocess_text d.content)).toFinset ∪
    (domain_terms.map (fun t => str_lower t)).toFinset

/-- PurePythonRetriever.compute_tf: empty mapping for an empty token
list, otherwise count of each distinct vocabulary token divided by the
token count.  Counter iteration is rendered by words.dedup (one entry
per distinct word; entry order is unobservable). -/
def compute_tf (vocab : Finset String) (words : List String) : List (String × ℝ) :=
  if words.length = 0 then []
  else words.dedup.filterMap (fun w =>
    if w ∈ vocab then some (w, (words.count w : ℝ) / (words.length : ℝ)) else none)

/-- Document frequency of one word: in how many documents it occurs.
This is the value doc_freq[w] accumulated by PurePythonRetriever.compute_idf
for the words that pass the vocabulary guard. -/
def doc_freq_count (documents : List (Document μ)) (w : String) : ℕ :=
  documents.countP (fun d => (preprocess_text d.content).contains w)

/-- PurePythonRetriever.compute_idf: one entry per vocabulary word that
occurs in at least one document, with value log(doc_count / (1 + doc_freq)). -/
def compute_idf (vocab : Finset String) (documents : List (Document μ)) :
    List (String × ℝ) :=
  (((documents.flatMap (fun d => preprocess_text d.content)).filter
      (fun w => decide (w ∈ vocab))).dedup).map (fun w =>
    (w, Real.log ((documents.length : ℝ) / (1 + (doc_freq_count documents w : ℝ)))))

/-- The loop shared by build_tfidf_vectors and search that multiplies a
term-frequency mapping with the idf table: vector[word] = tf * idf[word]
for every tf entry whose word has an idf entry. -/
def tfidf_vector (idf : List (String × ℝ)) (tf : List (String × ℝ)) :
    List (String × ℝ) :=
  tf.filterMap (fun p =>
    match idf.lookup p.1 with
    | some idf_value => some (p.1, p.2 * idf_value)
    | none => none)

/-- PurePythonRetriever.build_tfidf_vectors: one tf-idf vector per
document, in document order. -/
def build_tfidf_vectors (vocab : Finset String) (idf : List (String × ℝ))
    (documents : List (Document μ)) : List (List (String × ℝ)) :=
  documents.map (fun d => tfidf_vector idf (compute_tf vocab (preprocess_text d.content)))

/-- PurePythonRetriever.build_knowledge_base.  The guard raising
ValueError on an empty document list precedes every assignment in the
source, so the error branch returns the state unchanged; the success
branch replaces all five fields as the method body does. -/
def build_knowledge_base (st : PurePythonRetriever μ) (documents : List (Document μ)) :
    PurePythonRetriever μ × Option RetrievalError :=
  match documents with
  | [] => (st, some RetrievalError.emptyCorpus)
  | _ :: _ =>
      let vocab := build_vocabulary documents
      let idf := compute_idf vocab documents
      ({ st with
          documents := documents,
          vocab := vocab,
          idf := idf,
          doc_vectors := build_tfidf_vectors vocab idf documents,
          is_trained := true }, none)

/-- The state reached by building on a fresh retriever. -/
def build_state (documents : List (Document μ)) : PurePythonRetriever μ :=
  (build_knowledge_base init documents).1

/-- PurePythonRetriever.cosine_similarity: sums over the union of the key
sets of the two sparse vectors, with the explicit zero-norm guard. -/
def cosine_similarity (vec1 vec2 : List (String × ℝ)) : ℝ :=
  let all_words := (vec1.map Prod.fst ++ vec2.map Prod.fst).toFinset
  let dot_product := ∑ w ∈ all_words, ((vec1.lookup w).getD 0) * ((vec2.lookup w).getD 0)
  let norm1 := ∑ w ∈ all_words, ((vec1.lookup w).getD 0) * ((vec1.lookup w).getD 0)
  let norm2 := ∑ w ∈ all_words, ((vec2.lookup w).getD 0) * ((vec2.lookup w).getD 0)
  if norm1 = 0 ∨ norm2 = 0 then 0
  else dot_product / (Real.sqrt norm1 * Real.sqrt norm2)

/-- The query vector of search: the query term frequencies multiplied
with the trained idf table. -/
def query_vector (st : PurePythonRetriever μ) (query : String) : List (String × ℝ) :=
  tfidf_vector st.idf (compute_tf st.vocab (preprocess_text query))

/-- The similarities list of search: the (index, similarity) pairs that
reach at least min_score, in document order. -/
def similarities (st : PurePythonRetriever μ) (query : String) (min_score : ℝ) :
    List (ℕ × ℝ) :=
  (st.doc_vectors.enum.map (fun p =>
    (p.1, cosine_similarity (query_vector st query) p.2))).filter
      (fun p => decide (min_score ≤ p.2))

end PurePythonRetriever

/-- Stable insertion into a list kept in descending order of the second
component: the new element goes in front of the first entry whose key is
not strictly greater. -/
def insertDesc (x : ℕ × ℝ) : List (ℕ × ℝ) → List (ℕ × ℝ)
  | [] => [x]
  | y :: ys => if x.2 < y.2 then y :: insertDesc x ys else x :: y :: ys

/-- Stable descending sort on the second component, modelling
similarities.sort(key=lambda x: x[1], reverse=True). -/
def sortDesc : List (ℕ × ℝ) → List (ℕ × ℝ)
  | [] => []
  | x :: xs => insertDesc x (sortDesc xs)

namespace PurePythonRetriever

variable {μ : Type}

/-- The similarities list after the stable descending sort of search. -/
def sorted_similarities (st : PurePythonRetriever μ) (query : String) (min_score : ℝ) :
    List (ℕ × ℝ) :=
  sortDesc (similarities st query min_score)

/-- PurePythonRetriever.search: not-ready guard, then the first top_k
sorted qualifying pairs are turned into SearchResult records by indexing
self.documents (rendered with the total indexing operator; every index
produced by similarities is in range for a built state). -/
def search (st : PurePythonRetriever μ) (query : String) (top_k : ℕ) (min_score : ℝ) :
    Except RetrievalError (List (SearchResult μ)) :=
  if st.is_trained = false then Except.error RetrievalError.notReady
  else Except.ok (((sorted_similarities st query min_score).take top_k).filterMap
    (fun p => (st.documents[p.1]?).map (fun doc =>
      { content := doc.content, similarity := p.2, metadata := doc.metadata })))

end PurePythonRetriever

/-- The state of a PurePythonRetrievalManager object. -/
structure PurePythonRetrievalManager (μ : Type) where
  retriever : PurePythonRetriever μ
  is_ready : Bool

/-- The statistics record of get_statistics; the count fields are
optional because the not-ready branch of the source returns a dict
containing neither key. -/
structure Stats where
  status : String
  document_count : Option ℕ
  vocabulary_size : Option ℕ
deriving DecidableEq

namespace PurePythonRetrievalManager

variable {μ : Type}

/-- The state built by the constructor of PurePythonRetrievalManager. -/
def init : PurePythonRetrievalManager μ :=
  { retriever := PurePythonRetriever.init, is_ready := false }

/-- PurePythonRetrievalManager.build_from_documents: an empty list only
logs a warning and changes nothing; a non-empty list is forwarded to
build_knowledge_base and on success is_ready is set. -/
def build_from_documents (m : PurePythonRetrievalManager μ)
    (documents : List (Document μ)) :
    PurePythonRetrievalManager μ × Option RetrievalError :=
  match documents with
  | [] => (m, none)
  | _ :: _ =>
      match PurePythonRetriever.build_knowledge_base m.retriever documents with
      | (r, some err) => ({ m with retriever := r }, some err)
      | (r, none) => ({ m with retriever := r, is_ready := true }, none)

/-- PurePythonRetrievalManager.search: ready guard, then the retriever
search with the default min_score of 0.1. -/
def search (m : PurePythonRetrievalManager μ) (query : String) (top_k : ℕ) :
    Except RetrievalError (List (SearchResult μ)) :=
  if m.is_ready = false then Except.error RetrievalError.notReady
  else PurePythonRetriever.search m.retriever query top_k (1 / 10)

/-- PurePythonRetrievalManager.get_statistics: total; the not-ready
branch reports only the status, the ready branch also the counts. -/
def get_statistics (m : PurePythonRetrievalManager μ) : Stats :=
  if m.is_ready = false then
    { status := "not_ready", document_count := none, vocabulary_size := none }
  else
    { status := "ready",
      document_count := some m.retriever.documents.length,
      vocabulary_size := some m.retriever.vocab.card }

end PurePythonRetrievalManager

/-! ### Generic lemmas about association lists -/

theorem lookup_mem {α β : Type} [BEq α] [LawfulBEq α] {l : List (α × β)} {a : α} {b : β}
    (h : l.lookup a = some b) : (a, b) ∈ l := by
  induction l with
  | nil => simp [List.lookup] at h
  | cons p l ih =>
      rw [List.lookup] at h
      cases hpa : a == p.1 with
      | true =>
          rw [hpa] at h
          obtain rfl : p.2 = b := by simpa using h
          obtain rfl : a = p.1 := by simpa using hpa
          simp
      | false =>
          rw [hpa] at h
          exact List.mem_cons_of_mem _ (ih h)

theorem filterMap_length_of_isSome {α β : Type} (f : α → Option β) :
    ∀ (l : List α), (∀ x ∈ l, (f x).isSome) → (l.filterMap f).length = l.length := by
  intro l
  induction l with
  | nil => intro _; rfl
  | cons a l ih =>
      intro h
      rw [List.filterMap_cons]
      obtain ⟨b, hb⟩ := Option.isSome_iff_exists.1 (h a (List.mem_cons_self _ _))
      rw [hb, List.length_cons, ih (fun x hx => h x (List.mem_cons_of_mem _ hx))]
      rfl

namespace PurePythonRetriever

variable {μ : Type}

/-! ### Shape lemmas for term-frequency maps and tf-idf vectors -/

theorem compute_tf_nonneg {vocab : Finset String} {words : List String} {w : String} {t : ℝ}
    (h : (w, t) ∈ compute_tf vocab words) : 0 ≤ t := by
  rw [compute_tf] at h
  split at h
  · simp at h
  · obtain ⟨w', _, hw'⟩ := List.mem_filterMap.1 h
    split at hw'
    · obtain ⟨rfl, rfl⟩ := Prod.mk.injEq .. ▸ (Option.some.inj hw')
      positivity
    · simp at hw'

theorem mem_tfidf_vector {idf tf : List (String × ℝ)} {w : String} {x : ℝ}
    (h : (w, x) ∈ tfidf_vector idf tf) :
    ∃ t iv, (w, t) ∈ tf ∧ idf.lookup w = some iv ∧ x = t * iv := by
  rw [tfidf_vector] at h
  obtain ⟨p, hp, hpx⟩ := List.mem_filterMap.1 h
  cases hiv : idf.lookup p.1 with
  | none => rw [hiv] at hpx; simp at hpx
  | some iv =>
      rw [hiv] at hpx
      obtain ⟨h1, h2⟩ := Prod.mk.injEq .. ▸ (Option.some.inj hpx)
      refine ⟨p.2, iv, ?_, ?_, h2.symm⟩
      · rw [← h1]; exact hp
      · rw [← h1]; exact hiv

theorem tfidf_lookup_shape {idf tf : List (String × ℝ)}
    (htf : ∀ w t, (w, t) ∈ tf → 0 ≤ t) {w : String} {x : ℝ}
    (h : (tfidf_vector idf tf).lookup w = some x) :
    ∃ t iv, 0 ≤ t ∧ idf.lookup w = some iv ∧ x = t * iv := by
  obtain ⟨t, iv, hmem, hidf, hx⟩ := mem_tfidf_vector (lookup_mem h)
  exact ⟨t, iv, htf w t hmem, hidf, hx⟩

/-! ### Bounds on cosine similarity -/

theorem cosine_similarity_nonneg (idf : List (String × ℝ)) {v1 v2 : List (String × ℝ)}
    (h1 : ∀ w x, v1.lookup w = some x → ∃ t iv, 0 ≤ t ∧ idf.lookup w = some iv ∧ x = t * iv)
    (h2 : ∀ w x, v2.lookup w = some x → ∃ t iv, 0 ≤ t ∧ idf.lookup w = some iv ∧ x = t * iv) :
    0 ≤ cosine_similarity v1 v2 := by
  have hdot : 0 ≤ ∑ w ∈ (v1.map Prod.fst ++ v2.map Prod.fst).toFinset,
      ((v1.lookup w).getD 0) * ((v2.lookup w).getD 0) := by
    refine Finset.sum_nonneg fun w _ => ?_
    cases hv1 : v1.lookup w with
    | none => simp
    | some x1 =>
        cases hv2 : v2.lookup w with
        | none => simp
        | some x2 =>
            obtain ⟨t1, iv1, ht1, hiv1, hx1⟩ := h1 w x1 hv1
            obtain ⟨t2, iv2, ht2, hiv2, hx2⟩ := h2 w x2 hv2
            obtain rfl : iv1 = iv2 := Option.some.inj (hiv1.symm.trans hiv2)
            have : x1 * x2 = (t1 * t2) * (iv1 * iv1) := by rw [hx1, hx2]; ring
            simp only [Option.getD_some, this]
            exact mul_nonneg (mul_nonneg ht1 ht2) (mul_self_nonneg iv1)
  simp only [cosine_similarity]
  split
  · exact le_refl 0
  · exact div_nonneg hdot (mul_nonneg (Real.sqrt_nonneg _) (Real.sqrt_nonneg _))

theorem cosine_similarity_le_one (v1 v2 : List (String × ℝ)) :
    cosine_similarity v1 v2 ≤ 1 := by
  simp only [cosine_similarity]
  set s := (v1.map Prod.fst ++ v2.map Prod.fst).toFinset with hs
  set f : String → ℝ := fun w => (v1.lookup w).getD 0 with hf
  set g : String → ℝ := fun w => (v2.lookup w).getD 0 with hg
  have hn1 : (0:ℝ) ≤ ∑ w ∈ s, f w * f w :=
    Finset.sum_nonneg fun w _ => mul_self_nonneg _
  have hn2 : (0:ℝ) ≤ ∑ w ∈ s, g w * g w :=
    Finset.sum_nonneg fun w _ => mul_self_nonneg _
  split
  · exact zero_le_one
  · rename_i hne
    push_neg at hne
    have hp1 : (0:ℝ) < ∑ w ∈ s, f w * f w := lt_of_le_of_ne hn1 (Ne.symm hne.1)
    have hp2 : (0:ℝ) < ∑ w ∈ s, g w * g w := lt_of_le_of_ne hn2 (Ne.symm hne.2)
    rw [div_le_one (mul_pos (Real.sqrt_pos.2 hp1) (Real.sqrt_pos.2 hp2))]
    have hsq1 : ∑ w ∈ s, f w * f w = ∑ w ∈ s, f w ^ 2 :=
      Finset.sum_congr rfl fun w _ => (sq (f w)).symm
    have hsq2 : ∑ w ∈ s, g w * g w = ∑ w ∈ s, g w ^ 2 :=
      Finset.sum_congr rfl fun w _ => (sq (g w)).symm
    have hcs : (∑ w ∈ s, f w * g w) ^ 2 ≤ (∑ w ∈ s, f w * f w) * ∑ w ∈ s, g w * g w := by
      rw [hsq1, hsq2]
      exact Finset.sum_mul_sq_le_sq_mul_sq s f g
    calc ∑ w ∈ s, f w * g w ≤ |∑ w ∈ s, f w * g w| := le_abs_self _
      _ = Real.sqrt ((∑ w ∈ s, f w * g w) ^ 2) := (Real.sqrt_sq_eq_abs _).symm
      _ ≤ Real.sqrt ((∑ w ∈ s, f w * f w) * ∑ w ∈ s, g w * g w) := Real.sqrt_le_sqrt hcs
      _ = Real.sqrt (∑ w ∈ s, f w * f w) * Real.sqrt (∑ w ∈ s, g w * g w) :=
          Real.sqrt_mul hn1 _

end PurePythonRetriever

/-! ### The stable descending sort -/

/-- The ordering the sorted similarity list satisfies: either strictly
larger similarity, or equal similarity and smaller document index. -/
def rank_before (p q : ℕ × ℝ) : Prop :=
  q.2 < p.2 ∨ (p.2 = q.2 ∧ p.1 < q.1)

theorem mem_insertDesc {x y : ℕ × ℝ} : ∀ {l : List (ℕ × ℝ)},
    y ∈ insertDesc x l ↔ y = x ∨ y ∈ l := by
  intro l
  induction l with
  | nil => simp [insertDesc]
  | cons z l ih =>
      rw [insertDesc]
      split
      · rw [List.mem_cons, ih, List.mem_cons]
        tauto
      · simp only [List.mem_cons]

theorem insertDesc_perm (x : ℕ × ℝ) : ∀ (l : List (ℕ × ℝ)),
    (insertDesc x l).Perm (x :: l) := by
  intro l
  induction l with
  | nil => rfl
  | cons z l ih =>
      rw [insertDesc]
      split
      · exact (List.Perm.cons z ih).trans (List.Perm.swap x z l)
      · rfl

theorem sortDesc_perm : ∀ (l : List (ℕ × ℝ)), (sortDesc l).Perm l := by
  intro l
  induction l with
  | nil => rfl
  | cons x l ih =>
      rw [sortDesc]
      exact (insertDesc_perm x (sortDesc l)).trans (List.Perm.cons x ih)

theorem insertDesc_pairwise {x : ℕ × ℝ} : ∀ {l : List (ℕ × ℝ)},
    l.Pairwise rank_before → (∀ y ∈ l, x.1 < y.1) →
    (insertDesc x l).Pairwise rank_before := by
  intro l
  induction l with
  | nil => intro _ _; simp [insertDesc]
  | cons y l ih =>
      intro hl hx
      rw [List.pairwise_cons] at hl
      rw [insertDesc]
      split
      · rename_i hxy
        rw [List.pairwise_cons]
        constructor
        · intro z hz
          rcases mem_insertDesc.1 hz with rfl | hz'
          · exact Or.inl hxy
          · exact hl.1 z hz'
        · exact ih hl.2 fun z hz => hx z (List.mem_cons_of_mem _ hz)
      · rename_i hxy
        push_neg at hxy
        rw [List.pairwise_cons]
        constructor
        · intro z hz
          rcases List.mem_cons.1 hz with rfl | hz'
          · rcases lt_or_eq_of_le hxy with h | h
            · exact Or.inl h
            · exact Or.inr ⟨h.symm, hx z (List.mem_cons_self _ _)⟩
          · have hyz : z.2 ≤ y.2 := by
              rcases hl.1 z hz' with h | h
              · exact h.le
              · exact h.1.ge
            rcases lt_or_eq_of_le (hyz.trans hxy) with h | h
            · exact Or.inl h
            · exact Or.inr ⟨h.symm, hx z (List.mem_cons_of_mem _ hz')⟩
        · exact List.pairwise_cons.2 hl

theorem sortDesc_pairwise : ∀ {l : List (ℕ × ℝ)},
    l.Pairwise (fun p q => p.1 < q.1) → (sortDesc l).Pairwise rank_before := by
  intro l
  induction l with
  | nil => intro _; exact List.Pairwise.nil
  | cons x l ih =>
      intro hl
      rw [List.pairwise_cons] at hl
      rw [sortDesc]
      refine insertDesc_pairwise (ih hl.2) fun y hy => ?_
      exact hl.1 y ((sortDesc_perm l).mem_iff.1 hy)

namespace PurePythonRetriever

variable {μ : Type}

/-! ### Destructuring the search pipeline -/

theorem mem_similarities {st : PurePythonRetriever μ} {q : String} {ms : ℝ} {p : ℕ × ℝ}
    (hp : p ∈ similarities st q ms) :
    ms ≤ p.2 ∧ p.1 < st.doc_vectors.length ∧
      ∃ dv ∈ st.doc_vectors, p.2 = cosine_similarity (query_vector st q) dv := by
  rw [similarities] at hp
  obtain ⟨hmem, hdec⟩ := List.mem_filter.1 hp
  obtain ⟨e, he, rfl⟩ := List.mem_map.1 hmem
  obtain ⟨i, dv⟩ := e
  have hlt : i < st.doc_vectors.length := by
    have := (List.mem_enumFrom he).2.1
    simpa using this
  exact ⟨of_decide_eq_true hdec, hlt, dv, List.snd_mem_of_mem_enum he, rfl⟩

theorem similarities_index_pairwise (st : PurePythonRetriever μ) (q : String) (ms : ℝ) :
    (similarities st q ms).Pairwise (fun p p' => p.1 < p'.1) := by
  rw [similarities]
  refine List.Pairwise.sublist (List.filter_sublist _) ?_
  have henum : st.doc_vectors.enum.Pairwise (fun a b => a.1 < b.1) := by
    have hr : (st.doc_vectors.enum.map Prod.fst).Pairwise (fun a b => a < b) := by
      rw [List.enum_map_fst]
      exact List.pairwise_lt_range _
    exact (List.pairwise_map.1 hr)
  exact henum.map _ (fun a b h => h)

theorem search_ok_elim {st : PurePythonRetriever μ} {q : String} {tk : ℕ} {ms : ℝ}
    {res : List (SearchResult μ)} (hres : search st q tk ms = Except.ok res) :
    st.is_trained = true ∧
    res = ((sorted_similarities st q ms).take tk).filterMap
      (fun p => (st.documents[p.1]?).map fun doc =>
        { content := doc.content, similarity := p.2, metadata := doc.metadata }) := by
  rw [search] at hres
  split at hres
  · cases hres
  · rename_i h
    exact ⟨by simpa using h, (Except.ok.inj hres).symm⟩

theorem mem_search_result {st : PurePythonRetriever μ} {q : String} {tk : ℕ} {ms : ℝ}
    {res : List (SearchResult μ)} {r : SearchResult μ}
    (hres : search st q tk ms = Except.ok res) (hr : r ∈ res) :
    ∃ p ∈ similarities st q ms, r.similarity = p.2 := by
  obtain ⟨-, rfl⟩ := search_ok_elim hres
  obtain ⟨p, hp, hpr⟩ := List.mem_filterMap.1 hr
  have hp' : p ∈ similarities st q ms := by
    have h1 : p ∈ sorted_similarities st q ms := List.take_subset _ _ hp
    exact (sortDesc_perm _).mem_iff.1 h1
  obtain ⟨doc, _, rfl⟩ := Option.map_eq_some'.1 hpr
  exact ⟨p, hp', rfl⟩

end PurePythonRetriever

theorem countP_snd_map_enumFrom {α : Type} (g : α → ℝ) (c : ℝ → Bool) :
    ∀ (l : List α) (n : ℕ),
      ((List.enumFrom n l).map (fun p => (p.1, g p.2))).countP (fun p => c p.2)
        = (l.map g).countP c := by
  intro l
  induction l with
  | nil => intro n; rfl
  | cons a l ih =>
      intro n
      rw [List.enumFrom_cons, List.map_cons, List.map_cons, List.countP_cons,
        List.countP_cons, ih]

/-! ### A concrete one-document scenario used to witness the theorems -/

/-- The one-document corpus of the witnesses. -/
def d1 : Document Unit := { content := "a", metadata := () }

/-- The idf weight of the single corpus term: log(1/2), which is negative. -/
def L : ℝ := Real.log ((1:ℝ)/2)

theorem L_ne : L ≠ 0 := by
  simp [L, Real.log_eq_zero]
  norm_num

namespace PurePythonRetriever

theorem st1_idf : (build_state [d1]).idf = [("a", L)] := by
  show compute_idf (build_vocabulary [d1]) [d1] = [("a", L)]
  rw [compute_idf]
  rw [show ((([d1].flatMap (fun d => preprocess_text d.content)).filter
      (fun w => decide (w ∈ build_vocabulary [d1]))).dedup) = ["a"] by decide]
  rw [List.map_cons, List.map_nil]
  rw [show doc_freq_count [d1] "a" = 1 by decide]
  norm_num [L]

theorem tf_q : compute_tf (build_vocabulary [d1]) ["a"] = [("a", (1 : ℝ))] := by
  rw [compute_tf, if_neg (by decide), show (["a"] : List String).dedup = ["a"] by decide]
  rw [List.filterMap_cons]
  rw [if_pos (by decide : ("a" : String) ∈ build_vocabulary [d1])]
  norm_num

theorem qv1 : query_vector (build_state [d1]) "a" = [("a", L)] := by
  rw [query_vector, show preprocess_text "a" = ["a"] by decide]
  rw [show (build_state [d1]).vocab = build_vocabulary [d1] from rfl, tf_q]
  rw [st1_idf]
  simp [tfidf_vector, List.lookup]

theorem cos_LL : cosine_similarity [("a", L)] [("a", L)] = 1 := by
  rw [cosine_similarity]
  rw [show (([("a", L)].map Prod.fst ++ [("a", L)].map Prod.fst).toFinset : Finset String)
      = {"a"} by decide]
  simp only [Finset.sum_singleton, List.lookup, beq_self_eq_true, Option.getD_some]
  rw [if_neg (by push_neg; constructor <;> exact mul_ne_zero L_ne L_ne)]
  rw [Real.sqrt_mul_self_eq_abs, abs_mul_abs_self]
  exact div_self (mul_ne_zero L_ne L_ne)

theorem dv1 : (build_state [d1]).doc_vectors = [[("a", L)]] := by
  show build_tfidf_vectors (build_vocabulary [d1]) (compute_idf (build_vocabulary [d1]) [d1]) [d1]
      = [[("a", L)]]
  rw [build_tfidf_vectors, List.map_cons, List.map_nil]
  rw [show preprocess_text d1.content = ["a"] by decide]
  rw [tf_q, show compute_idf (build_vocabulary [d1]) [d1] = [("a", L)] from st1_idf]
  simp [tfidf_vector, List.lookup]

theorem sims1 : similarities (build_state [d1]) "a" ((1:ℝ)/10) = [(0, 1)] := by
  rw [similarities, dv1, qv1]
  simp only [List.enum, List.enumFrom, List.map_cons, List.map_nil, cos_LL]
  rw [List.filter_cons, if_pos (by rw [decide_eq_true_eq]; norm_num)]
  rfl

theorem search1 : search (build_state [d1]) "a" 5 ((1:ℝ)/10)
    = Except.ok [{ content := "a", similarity := 1, metadata := () }] := by
  rw [search, if_neg (by decide)]
  rw [sorted_similarities, sims1]
  rw [show sortDesc [((0:ℕ), (1:ℝ))] = [(0, 1)] by rw [sortDesc, sortDesc, insertDesc]]
  simp only [List.take, List.filterMap_cons, List.filterMap_nil]
  rw [show (build_state [d1]).documents[(0:ℕ)]? = some d1 from rfl]
  rfl

end PurePythonRetriever

/-! ### A concrete two-document scenario with a zero idf weight -/

/-- Second document of the two-document corpus. -/
def dB : Document Unit := { content := "b", metadata := () }

namespace PurePythonRetriever

theorem idf2 : compute_idf (build_vocabulary [d1, dB]) [d1, dB] = [("a", 0), ("b", 0)] := by
  rw [compute_idf]
  rw [show ((([d1, dB].flatMap (fun d => preprocess_text d.content)).filter
      (fun w => decide (w ∈ build_vocabulary [d1, dB]))).dedup) = ["a", "b"] by decide]
  rw [List.map_cons, List.map_cons, List.map_nil]
  rw [show doc_freq_count [d1, dB] "a" = 1 by decide]
  rw [show doc_freq_count [d1, dB] "b" = 1 by decide]
  norm_num

theorem dv2 : (build_state [d1, dB]).doc_vectors = [[("a", 0)], [("b", 0)]] := by
  show build_tfidf_vectors (build_vocabulary [d1, dB])
      (compute_idf (build_vocabulary [d1, dB]) [d1, dB]) [d1, dB] = [[("a", 0)], [("b", 0)]]
  rw [build_tfidf_vectors, List.map_cons, List.map_cons, List.map_nil, idf2]
  rw [show preprocess_text d1.content = ["a"] by decide]
  rw [show preprocess_text dB.content = ["b"] by decide]
  rw [show compute_tf (build_vocabulary [d1, dB]) ["a"] = [("a", (1:ℝ))] by
    rw [compute_tf, if_neg (by decide), show (["a"] : List String).dedup = ["a"] by decide,
      List.filterMap_cons, if_pos (by decide : ("a" : String) ∈ build_vocabulary [d1, dB])]
    norm_num]
  rw [show compute_tf (build_vocabulary [d1, dB]) ["b"] = [("b", (1:ℝ))] by
    rw [compute_tf, if_neg (by decide), show (["b"] : List String).dedup = ["b"] by decide,
      List.filterMap_cons, if_pos (by decide : ("b" : String) ∈ build_vocabulary [d1, dB])]
    norm_num]
  simp [tfidf_vector, List.lookup]

end PurePythonRetriever

/-! ## The claims -/

open PurePythonRetriever

/-- C1: for every state trained by build, every query, top_k and min_score,
each SearchResult returned by search has similarity in the closed
interval from 0 to 1.  The lower bound holds because the query vector and
every document vector weight each term with the same idf factor, so the
dot product is a sum of tf * tf * idf * idf terms; the upper bound is the
Cauchy-Schwarz inequality, and the zero-norm guard returns 0. -/
theorem similarity_in_unit_interval {μ : Type} (docs : List (Document μ)) (q : String)
    (tk : ℕ) (ms : ℝ) (res : List (SearchResult μ)) (r : SearchResult μ)
    (hres : search (build_state docs) q tk ms = Except.ok res)
    (hr : r ∈ res) : 0 ≤ r.similarity ∧ r.similarity ≤ 1 := by
  obtain ⟨p, hp, hsim⟩ := mem_search_result hres hr
  obtain ⟨-, -, dv, hdv, hcos⟩ := mem_similarities hp
  rw [hsim, hcos]
  cases docs with
  | nil =>
      exact absurd (search_ok_elim hres).1
        (by simp [build_state, build_knowledge_base, init])
  | cons d ds =>
      refine ⟨?_, cosine_similarity_le_one _ _⟩
      have hdv' : dv ∈ build_tfidf_vectors (build_vocabulary (d :: ds))
          (build_state (d :: ds)).idf (d :: ds) := hdv
      rw [build_tfidf_vectors] at hdv'
      obtain ⟨dd, hdd, hdveq⟩ := List.mem_map.1 hdv'
      refine cosine_similarity_nonneg (build_state (d :: ds)).idf ?_ ?_
      · intro w x hx
        rw [query_vector] at hx
        exact tfidf_lookup_shape (fun w' t ht => compute_tf_nonneg ht) hx
      · intro w x hx
        rw [← hdveq] at hx
        exact tfidf_lookup_shape (fun w' t ht => compute_tf_nonneg ht) hx

/-- Witness for C1 on the one-document corpus: the single returned result
has similarity 1, which lies in the unit interval. -/
theorem similarity_in_unit_interval_witness :
    0 ≤ ({ content := "a", similarity := 1, metadata := () } : SearchResult Unit).similarity ∧
    ({ content := "a", similarity := 1, metadata := () } : SearchResult Unit).similarity ≤ 1 :=
  similarity_in_unit_interval [d1] "a" 5 ((1:ℝ)/10) _ _ search1 (List.mem_singleton.2 rfl)

/-- C2 counterexample: on the one-document corpus the idf table stores
log(1/2) for the term of the document, a strictly negative value, so the
claim that every stored idf value is non-negative is false. -/
theorem idf_negative_on_singleton_corpus :
    (compute_idf (build_vocabulary [d1]) [d1]).lookup "a" = some L ∧ L < 0 := by
  constructor
  · rw [show compute_idf (build_vocabulary [d1]) [d1] = [("a", L)] from st1_idf]
    simp [List.lookup]
  · rw [L]
    exact Real.log_neg (by norm_num) (by norm_num)

/-- C2 amended: every value stored in the idf table equals
log(doc_count / (1 + doc_freq)) with 1 ≤ doc_freq ≤ doc_count, hence is
at least -log 2; values can be negative (zero allowed), contrary to the
claimed non-negativity. -/
theorem idf_lower_bound {μ : Type} (vocab : Finset String) (docs : List (Document μ))
    (w : String) (v : ℝ)
    (h : (compute_idf vocab docs).lookup w = some v) :
    -Real.log 2 ≤ v := by
  have hmem := lookup_mem h
  rw [compute_idf] at hmem
  obtain ⟨w', hw', heq⟩ := List.mem_map.1 hmem
  obtain ⟨h1, h2⟩ := Prod.mk.injEq .. ▸ heq
  subst h1
  rw [← h2]
  have hocc : ∃ d ∈ docs, w' ∈ preprocess_text d.content := by
    have := List.mem_filter.1 (List.mem_dedup.1 hw')
    exact List.mem_flatMap.1 this.1
  have hcnt1 : 1 ≤ doc_freq_count docs w' := by
    rw [doc_freq_count]
    refine List.countP_pos_iff.2 ?_
    obtain ⟨d, hd, hwd⟩ := hocc
    exact ⟨d, hd, List.elem_iff.2 hwd⟩
  have hcnt2 : doc_freq_count docs w' ≤ docs.length := List.countP_le_length _
  have hn1 : 1 ≤ docs.length := hcnt1.trans hcnt2
  have hhalf : (1:ℝ)/2 ≤ (docs.length : ℝ) / (1 + (doc_freq_count docs w' : ℝ)) := by
    rw [div_le_div_iff₀ (by norm_num) (by positivity)]
    have hc2 : (doc_freq_count docs w' : ℝ) ≤ (docs.length : ℝ) := Nat.cast_le.2 hcnt2
    have hc1 : (1:ℝ) ≤ (docs.length : ℝ) := by exact_mod_cast hn1
    linarith
  calc -Real.log 2 = Real.log ((1:ℝ)/2) := by rw [one_div, Real.log_inv]
    _ ≤ Real.log ((docs.length : ℝ) / (1 + (doc_freq_count docs w' : ℝ))) :=
        Real.log_le_log (by norm_num) hhalf

/-- Witness for the amended C2 bound at the concrete stored value log(1/2). -/
theorem idf_lower_bound_witness : -Real.log 2 ≤ L :=
  idf_lower_bound (build_vocabulary [d1]) [d1] "a" L
    (by rw [show compute_idf (build_vocabulary [d1]) [d1] = [("a", L)] from st1_idf]
        simp [List.lookup])

/-- C3 counterexample: on the corpus of the two documents "a" and "b"
both terms occur in exactly one of the two documents, so their idf value
is log(2/2) = 0 and both stored document vectors materialize an entry
with weight exactly 0, refuting the claim that no zero weight is ever
stored. -/
theorem zero_weight_materialized :
    (build_state [d1, dB]).doc_vectors = [[("a", 0)], [("b", 0)]] ∧
    ¬ (∀ v ∈ (build_state [d1, dB]).doc_vectors, ∀ p ∈ v, p.2 ≠ (0:ℝ)) := by
  refine ⟨dv2, fun hall => ?_⟩
  have hv : [(("a" : String), (0:ℝ))] ∈ (build_state [d1, dB]).doc_vectors := by
    rw [dv2]; simp
  exact hall _ hv ("a", 0) (List.mem_singleton.2 rfl) rfl

/-- C3 amended: every entry of the stored document vector at position i
comes from a term present in both the term-frequency map of the document
at the same position i and the idf table, and its weight is the product
tf * idf, which can be zero (when the idf value is zero); the
non-materialization of zero weights claimed by the spec does not hold. -/
theorem vector_terms_from_tf_and_idf {μ : Type} (docs : List (Document μ)) (i : ℕ)
    (v : List (String × ℝ)) (hv : (build_state docs).doc_vectors[i]? = some v)
    (w : String) (x : ℝ) (hx : (w, x) ∈ v) :
    ∃ d, docs[i]? = some d ∧ ∃ t iv,
      (w, t) ∈ compute_tf (build_vocabulary docs) (preprocess_text d.content) ∧
      (compute_idf (build_vocabulary docs) docs).lookup w = some iv ∧ x = t * iv := by
  cases docs with
  | nil => simp [build_state, build_knowledge_base, init] at hv
  | cons d0 ds =>
      have hv' : (List.map (fun d => tfidf_vector
          (compute_idf (build_vocabulary (d0 :: ds)) (d0 :: ds))
          (compute_tf (build_vocabulary (d0 :: ds)) (preprocess_text d.content)))
          (d0 :: ds))[i]? = some v := hv
      rw [List.getElem?_map] at hv'
      obtain ⟨d, hd, hveq⟩ := Option.map_eq_some'.1 hv'
      rw [← hveq] at hx
      obtain ⟨t, iv, ht, hiv, hxe⟩ := mem_tfidf_vector hx
      exact ⟨d, hd, t, iv, ht, hiv, hxe⟩

/-- Witness for the amended C3 on the one-document corpus: the entry of
the vector at position 0 decomposes as tf * idf over the document at
position 0. -/
theorem vector_terms_from_tf_and_idf_witness :
    ∃ d, ([d1])[(0:ℕ)]? = some d ∧ ∃ t iv,
      ("a", t) ∈ compute_tf (build_vocabulary [d1]) (preprocess_text d.content) ∧
      (compute_idf (build_vocabulary [d1]) [d1]).lookup "a" = some iv ∧ L = t * iv :=
  vector_terms_from_tf_and_idf [d1] 0 [("a", L)]
    (by rw [dv1]; rfl) "a" L (List.mem_singleton.2 rfl)

/-- C4: search returns no result below min_score; the results are sorted
by similarity in non-increasing order; and the sorted similarity list is
pairwise ordered by rank_before, that is, strictly larger similarity
first and, among equal similarities, the smaller (earlier inserted)
document index first: the stable sort preserves insertion order on ties. -/
theorem ranking_order {μ : Type} (docs : List (Document μ)) (q : String)
    (tk : ℕ) (ms : ℝ) (res : List (SearchResult μ))
    (hres : search (build_state docs) q tk ms = Except.ok res) :
    (∀ r ∈ res, ms ≤ r.similarity) ∧
    res.Pairwise (fun a b => b.similarity ≤ a.similarity) ∧
    (sorted_similarities (build_state docs) q ms).Pairwise rank_before := by
  have hpair : (sorted_similarities (build_state docs) q ms).Pairwise rank_before :=
    sortDesc_pairwise (similarities_index_pairwise _ _ _)
  refine ⟨?_, ?_, hpair⟩
  · intro r hr
    obtain ⟨p, hp, hsim⟩ := mem_search_result hres hr
    rw [hsim]
    exact (mem_similarities hp).1
  · obtain ⟨-, rfl⟩ := search_ok_elim hres
    have h1 : ((sorted_similarities (build_state docs) q ms).take tk).Pairwise rank_before :=
      hpair.sublist (List.take_sublist _ _)
    refine List.Pairwise.filterMap _ ?_ h1
    intro a a' haa' b hb b' hb'
    obtain ⟨da, -, hba⟩ := Option.map_eq_some'.1 hb
    obtain ⟨da', -, hba'⟩ := Option.map_eq_some'.1 hb'
    rw [← hba, ← hba']
    rcases haa' with h | h
    · exact h.le
    · exact h.1.ge

/-- Witness for C4 on the one-document corpus. -/
theorem ranking_order_witness :
    (1:ℝ)/10 ≤ ({ content := "a", similarity := 1, metadata := () } : SearchResult Unit).similarity ∧
    (sorted_similarities (build_state [d1]) "a" ((1:ℝ)/10)).Pairwise rank_before :=
  ⟨(ranking_order [d1] "a" 5 ((1:ℝ)/10) _ search1).1 _ (List.mem_singleton.2 rfl),
   (ranking_order [d1] "a" 5 ((1:ℝ)/10) _ search1).2.2⟩

/-- C5: building from an empty document sequence fails with the
empty-corpus error and returns the state exactly unchanged, whatever it
was (untrained stays untrained, trained stays trained on its corpus): in
the source the raise precedes every assignment. -/
theorem build_empty_fails_state_unchanged {μ : Type} (st : PurePythonRetriever μ) :
    build_knowledge_base st [] = (st, some RetrievalError.emptyCorpus) := rfl

/-- C6 counterexample: on the untrained fresh manager get_statistics
returns only the not_ready status; it does not report document_count = 0
or vocabulary_size = 0 as the claim states, it omits both fields. -/
theorem stats_untrained_omits_counts :
    PurePythonRetrievalManager.get_statistics ((PurePythonRetrievalManager.init : PurePythonRetrievalManager Unit))
      = { status := "not_ready", document_count := none, vocabulary_size := none } ∧
    (PurePythonRetrievalManager.get_statistics
      ((PurePythonRetrievalManager.init : PurePythonRetrievalManager Unit))).document_count ≠ some 0 ∧
    (PurePythonRetrievalManager.get_statistics
      ((PurePythonRetrievalManager.init : PurePythonRetrievalManager Unit))).vocabulary_size ≠ some 0 := by
  refine ⟨rfl, ?_, ?_⟩ <;> simp [PurePythonRetrievalManager.get_statistics,
    PurePythonRetrievalManager.init]

/-- C6 amended: get_statistics is total (it never raises; it is a total
function of the state), and on every manager state that is not ready it
returns the record with status not_ready and no count fields at all. -/
theorem stats_untrained_reports_status_only {μ : Type}
    (m : PurePythonRetrievalManager μ) (h : m.is_ready = false) :
    PurePythonRetrievalManager.get_statistics m
      = { status := "not_ready", document_count := none, vocabulary_size := none } := by
  rw [PurePythonRetrievalManager.get_statistics, if_pos h]

/-- Witness for the amended C6 at the fresh manager. -/
theorem stats_untrained_reports_status_only_witness :
    PurePythonRetrievalManager.get_statistics ((PurePythonRetrievalManager.init : PurePythonRetrievalManager Unit))
      = { status := "not_ready", document_count := none, vocabulary_size := none } :=
  stats_untrained_reports_status_only _ rfl

/-- C7: the number of results returned by search equals the minimum of
top_k and the number of stored document vectors whose cosine similarity
with the query vector reaches min_score; in particular it is at most
top_k. -/
theorem result_count_eq_min {μ : Type} (docs : List (Document μ)) (q : String)
    (tk : ℕ) (ms : ℝ) (res : List (SearchResult μ))
    (hres : search (build_state docs) q tk ms = Except.ok res) :
    res.length = min tk
      (((build_state docs).doc_vectors.map
        (fun dv => cosine_similarity (query_vector (build_state docs) q) dv)).countP
        (fun s => decide (ms ≤ s))) ∧
    res.length ≤ tk := by
  obtain ⟨-, rfl⟩ := search_ok_elim hres
  have hlen : (build_state docs).doc_vectors.length
      = (build_state docs).documents.length := by
    cases docs with
    | nil => rfl
    | cons d ds =>
        show (build_tfidf_vectors (build_vocabulary (d :: ds))
          (compute_idf (build_vocabulary (d :: ds)) (d :: ds)) (d :: ds)).length
            = (d :: ds).length
        rw [build_tfidf_vectors, List.length_map]
  have heq : (((sorted_similarities (build_state docs) q ms).take tk).filterMap
      (fun p => ((build_state docs).documents[p.1]?).map fun doc =>
        ({ content := doc.content, similarity := p.2, metadata := doc.metadata }
          : SearchResult μ))).length
      = min tk
        (((build_state docs).doc_vectors.map
          (fun dv => cosine_similarity (query_vector (build_state docs) q) dv)).countP
          (fun s => decide (ms ≤ s))) := by
    rw [filterMap_length_of_isSome]
    · rw [List.length_take]
      congr 1
      rw [show (sorted_similarities (build_state docs) q ms).length
          = (similarities (build_state docs) q ms).length from (sortDesc_perm _).length_eq]
      rw [similarities, ← List.countP_eq_length_filter]
      exact countP_snd_map_enumFrom
        (fun dv => cosine_similarity (query_vector (build_state docs) q) dv)
        (fun s => decide (ms ≤ s)) (build_state docs).doc_vectors 0
    · intro p hp
      have hp' : p ∈ similarities (build_state docs) q ms :=
        (sortDesc_perm _).mem_iff.1 (List.take_subset _ _ hp)
      have hidx : p.1 < (build_state docs).documents.length :=
        hlen ▸ (mem_similarities hp').2.1
      rw [List.getElem?_eq_getElem hidx]
      rfl
  exact ⟨heq, heq ▸ min_le_left _ _⟩

/-- Witness for C7 on the one-document corpus: one result is returned and
one document qualifies. -/
theorem result_count_eq_min_witness :
    ([{ content := "a", similarity := 1, metadata := () }] : List (SearchResult Unit)).length
      = min 5 (((build_state [d1]).doc_vectors.map
          (fun dv => cosine_similarity (query_vector (build_state [d1]) "a") dv)).countP
          (fun s => decide ((1:ℝ)/10 ≤ s))) ∧
    ([{ content := "a", similarity := 1, metadata := () }] : List (SearchResult Unit)).length ≤ 5 :=
  result_count_eq_min [d1] "a" 5 ((1:ℝ)/10) _ search1

/-- C8: searching on an untrained retriever state fails with the
not-ready error for every query, top_k and min_score, and so does the
manager search on a manager that is not ready. -/
theorem search_not_ready_error {μ : Type} (st : PurePythonRetriever μ)
    (m : PurePythonRetrievalManager μ) (q : String) (tk : ℕ) (ms : ℝ)
    (h1 : st.is_trained = false) (h2 : m.is_ready = false) :
    search st q tk ms = Except.error RetrievalError.notReady ∧
    PurePythonRetrievalManager.search m q tk = Except.error RetrievalError.notReady := by
  constructor
  · rw [search, if_pos h1]
  · rw [PurePythonRetrievalManager.search, if_pos h2]

/-- Witness for C8 at the fresh retriever and fresh manager. -/
theorem search_not_ready_error_witness :
    search (init : PurePythonRetriever Unit) "electrolyte" 5 ((1:ℝ)/10)
      = Except.error RetrievalError.notReady ∧
    PurePythonRetrievalManager.search ((PurePythonRetrievalManager.init : PurePythonRetrievalManager Unit))
      "electrolyte" 5 = Except.error RetrievalError.notReady :=
  search_not_ready_error _ _ _ _ _ rfl rfl

/-- C9: rebuilding with the same non-empty corpus is idempotent: the
vocabulary, the idf table and the document vectors after the second build
are identical to those after the first (the build output depends only on
the documents, not on the prior state). -/
theorem idempotent_rebuild {μ : Type} (st : PurePythonRetriever μ)
    (docs : List (Document μ)) (h : docs ≠ []) :
    (build_knowledge_base (build_knowledge_base st docs).1 docs).1.vocab
      = (build_knowledge_base st docs).1.vocab ∧
    (build_knowledge_base (build_knowledge_base st docs).1 docs).1.idf
      = (build_knowledge_base st docs).1.idf ∧
    (build_knowledge_base (build_knowledge_base st docs).1 docs).1.doc_vectors
      = (build_knowledge_base st docs).1.doc_vectors := by
  cases docs with
  | nil => exact absurd rfl h
  | cons d ds => exact ⟨rfl, rfl, rfl⟩

/-- Witness for C9 on the one-document corpus starting from the fresh state. -/
theorem idempotent_rebuild_witness :
    (build_knowledge_base (build_knowledge_base (init : PurePythonRetriever Unit) [d1]).1 [d1]).1.vocab
      = (build_knowledge_base (init : PurePythonRetriever Unit) [d1]).1.vocab ∧
    (build_knowledge_base (build_knowledge_base (init : PurePythonRetriever Unit) [d1]).1 [d1]).1.idf
      = (build_knowledge_base (init : PurePythonRetriever Unit) [d1]).1.idf ∧
    (build_knowledge_base (build_knowledge_base (init : PurePythonRetriever Unit) [d1]).1 [d1]).1.doc_vectors
      = (build_knowledge_base (init : PurePythonRetriever Unit) [d1]).1.doc_vectors :=
  idempotent_rebuild _ [d1] (by simp)

/-- C10: the manager build_from_documents with an empty list returns
normally with no error, leaving the whole manager state, its retriever
and its is_ready flag included, exactly unchanged. -/
theorem manager_empty_build_is_noop {μ : Type} (m : PurePythonRetrievalManager μ) :
    PurePythonRetrievalManager.build_from_documents m [] = (m, none) := rfl

end SciAssist

end
